import Mathlib

/-!
Shallow embedding of the collection-resolution and dataset-reading logic of
the tristan-img repository (src/collection.rs), together with theorems that
settle the specification claims about that code.

File-system and HDF5 effects are modelled by explicit environments: an
environment records which paths open successfully and what the metadata
dataset read returns, so the pure Lean functions below mirror the control
flow of the Rust source exactly.
-/

set_option maxRecDepth 8192

namespace Tristimg

/-- Model of an OS string (a path component or file name).  A component is
either valid UTF-8, in which case it carries the corresponding string, or a
non-UTF-8 byte sequence, which is kept opaque.  A nonUtf8 component models a
file name whose stem portion is itself not valid UTF-8 (only UTF-8 validity
of the stem matters downstream, in OsStr.to_str). -/
inductive OsStr where
  | utf8 (s : String)
  | nonUtf8 (bytes : List Nat)
deriving DecidableEq

/-- Rust OsStr::to_str: Some for valid UTF-8, None otherwise. -/
def OsStr.to_str : OsStr → Option String
  | OsStr.utf8 s => some s
  | OsStr.nonUtf8 _ => none

/-- Lossy display of a component, used only to model the path string a file
was opened under (all theorems below use UTF-8 components). -/
def OsStr.display : OsStr → String
  | OsStr.utf8 s => s
  | OsStr.nonUtf8 _ => "�"

/-- Model of a Rust Path / PathBuf: an optional root plus the list of normal
components in order.  CurDir and ParentDir components are not modelled; the
claims only involve paths made of normal components. -/
structure RustPath where
  absolute : Bool
  components : List OsStr
deriving DecidableEq

/-- Rust Path::parent: drops the final component.  It returns None exactly
when there is no component (the empty path, or a bare root), and Some of the
remaining path otherwise; in particular the parent of a bare file name is
Some of the empty relative path. -/
def RustPath.parent (p : RustPath) : Option RustPath :=
  match p.components with
  | [] => none
  | _ :: _ => some { absolute := p.absolute, components := p.components.dropLast }

/-- Rust Path::file_name: the final component, if any. -/
def RustPath.file_name (p : RustPath) : Option OsStr :=
  p.components.getLast?

/-- Rust file-stem extraction on a UTF-8 file name: the portion before the
final dot, except that a name without a dot, or whose only dot is leading,
is its own stem. -/
def fileStemStr (s : String) : String :=
  match s.data.reverse.dropWhile (fun c => !(c == '.')) with
  | [] => s
  | _ :: before =>
    match before with
    | [] => s
    | _ :: _ => String.mk before.reverse

/-- Stem of a component: on UTF-8 names, Rust splitting at the final dot;
a non-UTF-8 name, modelled as having a non-UTF-8 stem, stays opaque. -/
def OsStr.stem : OsStr → OsStr
  | OsStr.utf8 s => OsStr.utf8 (fileStemStr s)
  | OsStr.nonUtf8 b => OsStr.nonUtf8 b

/-- Rust Path::file_stem: stem of the final component, if any. -/
def RustPath.file_stem (p : RustPath) : Option OsStr :=
  p.file_name.map OsStr.stem

/-- Rust PathBuf::push of a single relative component. -/
def RustPath.push (p : RustPath) (name : OsStr) : RustPath :=
  { absolute := p.absolute, components := p.components ++ [name] }

/-- The string a path denotes, as used when opening a file (and hence as
recorded by the HDF5 library for File::filename). -/
def pathString (p : RustPath) : String :=
  (if p.absolute then "/" else "") ++
    String.intercalate "/" (p.components.map OsStr.display)

/-- The error enumeration of src/collection.rs.  All hdf5 library failures
collapse into the Hdf5 variant, as in the source (the From conversion). The
spelling NoParentDirecory follows the source. -/
inductive Error where
  | Hdf5
  | NoFileStem
  | NoParentDirecory
  | DatasetNotFound (name : String)
deriving DecidableEq

/-- An opened HDF5 file handle.  The model records the path the file was
opened under; hdf5 File::filename wraps H5Fget_name, which returns exactly
the name that was passed to open. -/
structure File where
  path : RustPath
deriving DecidableEq

/-- The name of an opened file as reported by hdf5 File::filename. -/
def File.filename (f : File) : String :=
  pathString f.path

/-- A detector module: the data files written by the module. -/
structure Module where
  data_files : List File
deriving DecidableEq

/-- A data collection: a set of detector modules. -/
structure Collection where
  modules : List Module
deriving DecidableEq

/-- Modulus of u32 arithmetic: the file-number counter and the per-module
counts in the source are u32 values. -/
def U32 : Nat := 4294967296

/-- Environment for Collection::from_nexus: which paths File::open succeeds
on, and the result of reading the /entry/data/meta_file group and its
fp_per_module dataset (none models any hdf5 failure in that chain). -/
structure Hdf5Env where
  openOk : RustPath → Bool
  fpPerModule : RustPath → Option (List Nat)

/-- Zero padding as performed by the Rust format specifier with fill 0 and
right alignment at a given minimum width: shorter strings are left-padded
with zeros, longer strings are unchanged. -/
def zeroPad (width : Nat) (s : String) : String :=
  if s.length < width then String.mk (List.replicate (width - s.length) '0') ++ s
  else s

/-- The data-file name constructed in the loop of Collection::from_nexus. -/
def dataFileName (stemStr : String) (pad n : Nat) : String :=
  stemStr ++ "_" ++ zeroPad pad (Nat.repr n) ++ ".h5"

/-- The full data-file path: the file name pushed onto the directory. -/
def dataFilePath (dir : RustPath) (stemStr : String) (pad n : Nat) : RustPath :=
  dir.push (OsStr.utf8 (dataFileName stemStr pad n))

/-- The inner loop of Collection::from_nexus over the file indices of one
module: for each index, compute the file number (u32 addition), build the
file path and open it; the first failed open aborts with an Hdf5 error. -/
def openFiles (env : Hdf5Env) (dir : RustPath) (stemStr : String) (pad offset : Nat) :
    List Nat → Except Error (List File)
  | [] => Except.ok []
  | idx :: rest =>
    let p := dataFilePath dir stemStr pad ((offset + idx) % U32)
    if env.openOk p then
      match openFiles env dir stemStr pad offset rest with
      | Except.ok fs => Except.ok (File.mk p :: fs)
      | Except.error e => Except.error e
    else Except.error Error.Hdf5

/-- The outer loop of Collection::from_nexus over the per-module counts: a
module opens files at indices 1..=count, and the running offset advances by
the count (u32 addition) after each module. -/
def openModules (env : Hdf5Env) (dir : RustPath) (stemStr : String) (pad : Nat) :
    Nat → List Nat → Except Error (List Module)
  | _, [] => Except.ok []
  | offset, c :: rest =>
    match openFiles env dir stemStr pad offset (List.range' 1 c) with
    | Except.error e => Except.error e
    | Except.ok fs =>
      match openModules env dir stemStr pad ((offset + c) % U32) rest with
      | Except.error e => Except.error e
      | Except.ok ms => Except.ok (Module.mk fs :: ms)

/-- Collection::from_nexus: open the metadata file, read the per-module
counts, derive the naming stem and the containing directory, then open every
declared data file, assembling modules in declaration order. -/
def from_nexus (env : Hdf5Env) (path : RustPath) (datafile_zero_padding : Nat) :
    Except Error Collection :=
  if env.openOk path then
    match env.fpPerModule path with
    | none => Except.error Error.Hdf5
    | some module_file_counts =>
      match path.file_stem with
      | none => Except.error Error.NoFileStem
      | some st =>
        match st.to_str with
        | none => Except.error Error.NoFileStem
        | some stemStr =>
          match path.parent with
          | none => Except.error Error.NoParentDirecory
          | some directory =>
            match openModules env directory stemStr datafile_zero_padding 0
                module_file_counts with
            | Except.error e => Except.error e
            | Except.ok ms => Except.ok (Collection.mk ms)
  else Except.error Error.Hdf5

/-- Environment for read_hdf5_data, describing one file system of HDF5
files: whether a path opens, whether a named dataset exists in a file,
whether its one-dimensional read succeeds, and the values it holds.  The
element type is abstract: the claims about read_hdf5_data concern ordering
and failure behaviour, not floating-point arithmetic. -/
structure DataEnv (α : Type) where
  openOk : RustPath → Bool
  hasDataset : RustPath → String → Bool
  readOk : RustPath → String → Bool
  values : RustPath → String → List α

/-- The key loop of read_hdf5_data: for each key in order, a missing dataset
aborts with DatasetNotFound naming that key, a failed read aborts with an
Hdf5 error, and otherwise the values are collected in order. -/
def readKeys {α : Type} (env : DataEnv α) (path : RustPath) :
    List String → Except Error (List (List α))
  | [] => Except.ok []
  | key :: rest =>
    if env.hasDataset path key then
      if env.readOk path key then
        match readKeys env path rest with
        | Except.ok ds => Except.ok (env.values path key :: ds)
        | Except.error e => Except.error e
      else Except.error Error.Hdf5
    else Except.error (Error.DatasetNotFound key)

/-- read_hdf5_data from src/collection.rs: open the file, then read the
requested dataset keys in order. -/
def read_hdf5_data {α : Type} (env : DataEnv α) (path : RustPath)
    (keys : List String) : Except Error (List (List α)) :=
  if env.openOk path then readKeys env path keys
  else Except.error Error.Hdf5

/-- The ptree StringItem: a text label and ordered children. -/
inductive StringItem where
  | node (text : String) (children : List StringItem)

/-- The ptree TreeBuilder, modelled as the stack of currently open nodes:
each entry is a label together with the children built so far, innermost
first. -/
structure TreeBuilder where
  stack : List (String × List StringItem)

/-- TreeBuilder::new: a single open root node. -/
def TreeBuilder.new (text : String) : TreeBuilder :=
  TreeBuilder.mk [(text, [])]

/-- TreeBuilder::begin_child: open a nested node. -/
def TreeBuilder.begin_child (b : TreeBuilder) (text : String) : TreeBuilder :=
  TreeBuilder.mk ((text, []) :: b.stack)

/-- TreeBuilder::add_empty_child: append a leaf to the innermost open node. -/
def TreeBuilder.add_empty_child (b : TreeBuilder) (text : String) : TreeBuilder :=
  match b.stack with
  | [] => b
  | (t, cs) :: rest => TreeBuilder.mk ((t, cs ++ [StringItem.node text []]) :: rest)

/-- TreeBuilder::end_child: close the innermost open node and append it as a
child of its parent. -/
def TreeBuilder.end_child (b : TreeBuilder) : TreeBuilder :=
  match b.stack with
  | (t, cs) :: (t2, cs2) :: rest =>
    TreeBuilder.mk ((t2, cs2 ++ [StringItem.node t cs]) :: rest)
  | _ => b

/-- TreeBuilder::build on balanced usage: the root node. -/
def TreeBuilder.build (b : TreeBuilder) : StringItem :=
  match b.stack with
  | (t, cs) :: _ => StringItem.node t cs
  | [] => StringItem.node "" []

/-- The loop body of Collection::as_tree for one (index, module) pair:
begin a child labelled with the module index, add one empty child per data
file labelled with its filename, end the child. -/
def visitModule (t : TreeBuilder) (p : Nat × Module) : TreeBuilder :=
  ((p.2.data_files.foldl (fun b f => b.add_empty_child f.filename)
      (t.begin_child ("module_" ++ Nat.repr p.1))).end_child)

/-- Collection::as_tree: a root labelled collection, one child per module
in enumeration order, one leaf per data file. -/
def as_tree (c : Collection) : StringItem :=
  ((c.modules.enum).foldl visitModule (TreeBuilder.new "collection")).build

/-- The file number the source assigns to the file with zero-based index j
of module i, given the per-module counts: one plus the index, advanced by
the counts of all earlier modules, in u32 arithmetic. -/
def fileNumber (counts : List Nat) (i j : Nat) : Nat :=
  ((counts.take i).sum + (j + 1)) % U32

/-- The modules from_nexus builds for a given running offset and list of
remaining counts, written out explicitly (proof-support description of the
loops above). -/
def expectedModules (dir : RustPath) (stemStr : String) (pad : Nat) :
    Nat → List Nat → List Module
  | _, [] => []
  | offset, c :: rest =>
    Module.mk ((List.range' 1 c).map
        (fun i => File.mk (dataFilePath dir stemStr pad ((offset + i) % U32)))) ::
      expectedModules dir stemStr pad ((offset + c) % U32) rest

/-- The per-module lists of data-file paths, with the running offset spelled
out without modular reduction (valid below the u32 bound). -/
def expectedPaths (dir : RustPath) (stemStr : String) (pad : Nat) :
    Nat → List Nat → List (List RustPath)
  | _, [] => []
  | offset, c :: rest =>
    (List.range' (offset + 1) c).map (dataFilePath dir stemStr pad) ::
      expectedPaths dir stemStr pad (offset + c) rest

/-- The tree node as_tree produces for one (index, module) pair: a node
labelled with the zero-based module index whose children are leaves labelled
with the filename of each data file, in order. -/
def moduleItem (p : Nat × Module) : StringItem :=
  StringItem.node ("module_" ++ Nat.repr p.1)
    (p.2.data_files.map (fun f => StringItem.node f.filename []))

theorem map_range'_shift {α : Type} (g : Nat → α) (c : Nat) :
    ∀ s t : Nat, (List.range' s c).map (fun i => g (t + i)) =
      (List.range' (t + s) c).map g := by
  induction c with
  | zero => intro s t; simp
  | succ n ih =>
    intro s t
    rw [List.range'_succ, List.range'_succ, List.map_cons, List.map_cons, ih (s + 1)]
    rfl

theorem openFiles_ok_eq (env : Hdf5Env) (dir : RustPath) (stemStr : String)
    (pad offset : Nat) (idxs : List Nat) :
    ∀ fs, openFiles env dir stemStr pad offset idxs = Except.ok fs →
      fs = idxs.map (fun i => File.mk (dataFilePath dir stemStr pad ((offset + i) % U32))) := by
  induction idxs with
  | nil => intro fs h; simp [openFiles] at h; simp [h]
  | cons idx rest ih =>
    intro fs h
    simp only [openFiles] at h
    cases hop : env.openOk (dataFilePath dir stemStr pad ((offset + idx) % U32)) with
    | false => rw [hop] at h; simp at h
    | true =>
      rw [hop] at h
      simp only [if_true] at h
      cases hrec : openFiles env dir stemStr pad offset rest with
      | error e => rw [hrec] at h; simp at h
      | ok fs2 =>
        rw [hrec] at h
        simp only [Except.ok.injEq] at h
        rw [← h, List.map_cons, ih fs2 hrec]

theorem openFiles_ok_open (env : Hdf5Env) (dir : RustPath) (stemStr : String)
    (pad offset : Nat) (idxs : List Nat) :
    ∀ fs, openFiles env dir stemStr pad offset idxs = Except.ok fs →
      ∀ i ∈ idxs, env.openOk (dataFilePath dir stemStr pad ((offset + i) % U32)) = true := by
  induction idxs with
  | nil => intro fs _ i hi; simp at hi
  | cons idx rest ih =>
    intro fs h i hi
    simp only [openFiles] at h
    cases hop : env.openOk (dataFilePath dir stemStr pad ((offset + idx) % U32)) with
    | false => rw [hop] at h; simp at h
    | true =>
      rw [hop] at h
      simp only [if_true] at h
      cases hrec : openFiles env dir stemStr pad offset rest with
      | error e => rw [hrec] at h; simp at h
      | ok fs2 =>
        rcases List.mem_cons.mp hi with hi1 | hi2
        · rw [hi1]; exact hop
        · exact ih fs2 hrec i hi2

theorem openFiles_error_eq (env : Hdf5Env) (dir : RustPath) (stemStr : String)
    (pad offset : Nat) (idxs : List Nat) :
    ∀ e, openFiles env dir stemStr pad offset idxs = Except.error e → e = Error.Hdf5 := by
  induction idxs with
  | nil => intro e h; simp [openFiles] at h
  | cons idx rest ih =>
    intro e h
    simp only [openFiles] at h
    cases hop : env.openOk (dataFilePath dir stemStr pad ((offset + idx) % U32)) with
    | false => rw [hop] at h; simp at h; exact h.symm
    | true =>
      rw [hop] at h
      simp only [if_true] at h
      cases hrec : openFiles env dir stemStr pad offset rest with
      | error e2 => rw [hrec] at h; simp at h; exact h.symm.trans (ih e2 hrec)
      | ok fs2 => rw [hrec] at h; simp at h

theorem openModules_ok_eq (env : Hdf5Env) (dir : RustPath) (stemStr : String)
    (pad : Nat) (counts : List Nat) :
    ∀ offset ms, openModules env dir stemStr pad offset counts = Except.ok ms →
      ms = expectedModules dir stemStr pad offset counts := by
  induction counts with
  | nil => intro offset ms h; simp [openModules] at h; simp [h, expectedModules]
  | cons c rest ih =>
    intro offset ms h
    simp only [openModules] at h
    cases hf : openFiles env dir stemStr pad offset (List.range' 1 c) with
    | error e => rw [hf] at h; simp at h
    | ok fs =>
      rw [hf] at h
      cases hm : openModules env dir stemStr pad ((offset + c) % U32) rest with
      | error e => rw [hm] at h; simp at h
      | ok ms2 =>
        rw [hm] at h
        simp only [Except.ok.injEq] at h
        rw [← h, expectedModules, ← openFiles_ok_eq env dir stemStr pad offset _ fs hf,
          ← ih ((offset + c) % U32) ms2 hm]

theorem openModules_error_eq (env : Hdf5Env) (dir : RustPath) (stemStr : String)
    (pad : Nat) (counts : List Nat) :
    ∀ offset e, openModules env dir stemStr pad offset counts = Except.error e →
      e = Error.Hdf5 := by
  induction counts with
  | nil => intro offset e h; simp [openModules] at h
  | cons c rest ih =>
    intro offset e h
    simp only [openModules] at h
    cases hf : openFiles env dir stemStr pad offset (List.range' 1 c) with
    | error e2 =>
      rw [hf] at h; simp at h
      exact h.symm.trans (openFiles_error_eq env dir stemStr pad offset _ e2 hf)
    | ok fs =>
      rw [hf] at h
      cases hm : openModules env dir stemStr pad ((offset + c) % U32) rest with
      | error e2 => rw [hm] at h; simp at h; exact h.symm.trans (ih _ e2 hm)
      | ok ms2 => rw [hm] at h; simp at h

theorem openModules_ok_open (env : Hdf5Env) (dir : RustPath) (stemStr : String)
    (pad : Nat) (counts : List Nat) :
    ∀ offset ms, openModules env dir stemStr pad offset counts = Except.ok ms →
      ∀ i (hi : i < counts.length) j, j < counts.get ⟨i, hi⟩ →
        env.openOk (dataFilePath dir stemStr pad
          ((offset + (counts.take i).sum + (j + 1)) % U32)) = true := by
  induction counts with
  | nil => intro offset ms _ i hi; simp at hi
  | cons c rest ih =>
    intro offset ms h i hi j hj
    simp only [openModules] at h
    cases hf : openFiles env dir stemStr pad offset (List.range' 1 c) with
    | error e => rw [hf] at h; simp at h
    | ok fs =>
      rw [hf] at h
      cases hm : openModules env dir stemStr pad ((offset + c) % U32) rest with
      | error e => rw [hm] at h; simp at h
      | ok ms2 =>
        cases i with
        | zero =>
          simp only [List.take, List.sum_nil, Nat.add_zero]
          have hmem : (j + 1) ∈ List.range' 1 c := by
            rw [List.mem_range'_1]
            refine ⟨Nat.le_add_left 1 j, ?_⟩
            simp only [List.get] at hj
            omega
          exact openFiles_ok_open env dir stemStr pad offset _ fs hf (j + 1) hmem
        | succ i2 =>
          have hi2 : i2 < rest.length := by simpa using hi
          have h5 := ih ((offset + c) % U32) ms2 hm i2 hi2 j (by simpa using hj)
          rw [Nat.add_assoc, Nat.mod_add_mod, ← Nat.add_assoc] at h5
          have harr : offset + c + (List.take i2 rest).sum =
              offset + ((c :: rest).take (i2 + 1)).sum := by
            simp [List.sum_cons]
            omega
          rw [harr] at h5
          exact h5

theorem expectedModules_lengths (dir : RustPath) (stemStr : String) (pad : Nat)
    (counts : List Nat) :
    ∀ offset, (expectedModules dir stemStr pad offset counts).map
      (fun m => m.data_files.length) = counts := by
  induction counts with
  | nil => intro offset; simp [expectedModules]
  | cons c rest ih =>
    intro offset
    simp only [expectedModules, List.map_cons, List.length_map, List.length_range']
    rw [ih]

theorem expectedModules_paths (dir : RustPath) (stemStr : String) (pad : Nat)
    (counts : List Nat) :
    ∀ offset, offset + counts.sum < U32 →
      (expectedModules dir stemStr pad offset counts).map
        (fun m => m.data_files.map File.path) =
       expectedPaths dir stemStr pad offset counts := by
  induction counts with
  | nil => intro offset _; simp [expectedModules, expectedPaths]
  | cons c rest ih =>
    intro offset hlt
    simp only [List.sum_cons] at hlt
    simp only [expectedModules, expectedPaths, List.map_cons, List.map_map]
    have hmod : (offset + c) % U32 = offset + c := Nat.mod_eq_of_lt (by omega)
    congr 1
    · have hcong : (List.range' 1 c).map
          (File.path ∘ fun i => File.mk (dataFilePath dir stemStr pad ((offset + i) % U32))) =
          (List.range' 1 c).map (fun i => dataFilePath dir stemStr pad (offset + i)) := by
        apply List.map_congr_left
        intro i hi
        rw [List.mem_range'_1] at hi
        simp only [Function.comp_apply]
        have hlt2 : offset + i < U32 := by omega
        rw [Nat.mod_eq_of_lt hlt2]
      rw [hcong, map_range'_shift (dataFilePath dir stemStr pad) c 1 offset]
    · rw [hmod]
      exact ih (offset + c) (by omega)

theorem expectedPaths_flatten (dir : RustPath) (stemStr : String) (pad : Nat)
    (counts : List Nat) :
    ∀ offset, (expectedPaths dir stemStr pad offset counts).flatten =
      (List.range' (offset + 1) counts.sum).map (dataFilePath dir stemStr pad) := by
  induction counts with
  | nil => intro offset; simp [expectedPaths]
  | cons c rest ih =>
    intro offset
    simp only [expectedPaths, List.flatten_cons, List.sum_cons]
    rw [ih (offset + c), ← List.map_append]
    have : List.range' (offset + 1) c ++ List.range' (offset + c + 1) rest.sum =
        List.range' (offset + 1) (c + rest.sum) := by
      have h := List.range'_append_1 (offset + 1) c rest.sum
      rw [Nat.add_comm rest.sum c] at h
      have harr : offset + 1 + c = offset + c + 1 := by omega
      rw [harr] at h
      exact h
    rw [this]

theorem expectedPaths_length (dir : RustPath) (stemStr : String) (pad : Nat)
    (counts : List Nat) :
    ∀ offset, (expectedPaths dir stemStr pad offset counts).length = counts.length := by
  induction counts with
  | nil => intro offset; simp [expectedPaths]
  | cons c rest ih => intro offset; simp only [expectedPaths, List.length_cons]; rw [ih]

theorem expectedPaths_get (dir : RustPath) (stemStr : String) (pad : Nat)
    (counts : List Nat) :
    ∀ offset i (hi : i < counts.length)
      (hi2 : i < (expectedPaths dir stemStr pad offset counts).length),
      (expectedPaths dir stemStr pad offset counts).get ⟨i, hi2⟩ =
        (List.range' (offset + (counts.take i).sum + 1) (counts.get ⟨i, hi⟩)).map
          (dataFilePath dir stemStr pad) := by
  induction counts with
  | nil => intro offset i hi; simp at hi
  | cons c rest ih =>
    intro offset i hi hi2
    cases i with
    | zero => simp [expectedPaths]
    | succ i2 =>
      have hi2r : i2 < rest.length := by simpa using hi
      have hi2e : i2 < (expectedPaths dir stemStr pad (offset + c) rest).length := by
        rw [expectedPaths_length]; exact hi2r
      have hstep : (expectedPaths dir stemStr pad offset (c :: rest)).get ⟨i2 + 1, hi2⟩ =
          (expectedPaths dir stemStr pad (offset + c) rest).get ⟨i2, hi2e⟩ := rfl
      rw [hstep, ih (offset + c) i2 hi2r hi2e]
      have harr : offset + c + (rest.take i2).sum = offset + ((c :: rest).take (i2 + 1)).sum := by
        simp [List.sum_cons]
        omega
      rw [harr]
      rfl

theorem expectedModules_mem_path (dir : RustPath) (stemStr : String) (pad : Nat)
    (counts : List Nat) :
    ∀ offset m, m ∈ expectedModules dir stemStr pad offset counts →
      ∀ f ∈ m.data_files, ∃ n, f.path = dataFilePath dir stemStr pad n := by
  induction counts with
  | nil => intro offset m hm; simp [expectedModules] at hm
  | cons c rest ih =>
    intro offset m hm f hf
    simp only [expectedModules, List.mem_cons] at hm
    rcases hm with hm1 | hm2
    · rw [hm1] at hf
      simp only [List.mem_map] at hf
      obtain ⟨i, _, hfe⟩ := hf
      exact ⟨(offset + i) % U32, by rw [← hfe]⟩
    · exact ih ((offset + c) % U32) m hm2 f hf

theorem from_nexus_ok_destruct (env : Hdf5Env) (path : RustPath) (pad : Nat)
    (counts : List Nat) (st : OsStr) (stemStr : String) (dir : RustPath)
    (col : Collection)
    (hm : env.fpPerModule path = some counts)
    (hst : path.file_stem = some st)
    (hs : st.to_str = some stemStr)
    (hp : path.parent = some dir)
    (hok : from_nexus env path pad = Except.ok col) :
    openModules env dir stemStr pad 0 counts = Except.ok col.modules := by
  unfold from_nexus at hok
  cases hopen : env.openOk path with
  | false => rw [hopen] at hok; simp at hok
  | true =>
    rw [hopen] at hok
    simp only [if_true, hm, hst, hs, hp] at hok
    cases homs : openModules env dir stemStr pad 0 counts with
    | error e => rw [homs] at hok; simp at hok
    | ok ms =>
      rw [homs] at hok
      simp only [Except.ok.injEq] at hok
      rw [← hok]

theorem get_of_map_eq {α β : Type} (f : α → β) (l : List α) (l2 : List β)
    (h : l.map f = l2) (i : Nat) (hi : i < l.length) (hi2 : i < l2.length) :
    f (l.get ⟨i, hi⟩) = l2.get ⟨i, hi2⟩ := by
  subst h
  simp [List.get_eq_getElem, List.getElem_map]

/-- C1: for every metadata file whose per-module counts dataset reads as the
sequence c0, ..., ck, a successful Collection::from_nexus returns a
Collection with exactly k+1 modules, in declaration order, where module i
contains exactly ci opened files; a declared count of 0 yields an empty
module. -/
theorem c1_module_counts (env : Hdf5Env) (path : RustPath) (pad : Nat)
    (counts : List Nat) (st : OsStr) (stemStr : String) (dir : RustPath)
    (col : Collection)
    (hm : env.fpPerModule path = some counts)
    (hst : path.file_stem = some st)
    (hs : st.to_str = some stemStr)
    (hp : path.parent = some dir)
    (hok : from_nexus env path pad = Except.ok col) :
    col.modules.length = counts.length ∧
    col.modules.map (fun m => m.data_files.length) = counts ∧
    ∀ i (hi : i < counts.length) (hi2 : i < col.modules.length),
      (col.modules.get ⟨i, hi2⟩).data_files.length = counts.get ⟨i, hi⟩ := by
  have h1 := from_nexus_ok_destruct env path pad counts st stemStr dir col hm hst hs hp hok
  have h2 := openModules_ok_eq env dir stemStr pad counts 0 col.modules h1
  have hmap : col.modules.map (fun m => m.data_files.length) = counts := by
    rw [h2]; exact expectedModules_lengths dir stemStr pad counts 0
  refine ⟨?_, hmap, ?_⟩
  · have h3 := congrArg List.length hmap
    rw [List.length_map] at h3
    exact h3
  · intro i hi hi2
    exact get_of_map_eq (fun m => m.data_files.length) col.modules counts hmap i hi2 hi

/-- C1 witness: a concrete environment with counts 1 and 2 and every open
succeeding, evaluated. -/
theorem c1_module_counts_witness :
    from_nexus ⟨fun _ => true, fun _ => some [1, 2]⟩
        ⟨false, [OsStr.utf8 "scan.nxs"]⟩ 3 =
      Except.ok (Collection.mk
        [Module.mk [File.mk ⟨false, [OsStr.utf8 "scan_001.h5"]⟩],
         Module.mk [File.mk ⟨false, [OsStr.utf8 "scan_002.h5"]⟩,
           File.mk ⟨false, [OsStr.utf8 "scan_003.h5"]⟩]]) ∧
    (Collection.mk
        [Module.mk [File.mk ⟨false, [OsStr.utf8 "scan_001.h5"]⟩],
         Module.mk [File.mk ⟨false, [OsStr.utf8 "scan_002.h5"]⟩,
           File.mk ⟨false, [OsStr.utf8 "scan_003.h5"]⟩]]).modules.map
      (fun m => m.data_files.length) = [1, 2] :=
  ⟨rfl,
    (c1_module_counts ⟨fun _ => true, fun _ => some [1, 2]⟩
      ⟨false, [OsStr.utf8 "scan.nxs"]⟩ 3 [1, 2] (OsStr.utf8 "scan") "scan"
      ⟨false, []⟩ _ rfl rfl rfl rfl rfl).2.1⟩

/-- C2: the file numbers from_nexus assigns, concatenated in module order
and ascending file order, form exactly the sequence 1, 2, ..., sum of the
counts, and module i starts at 1 plus the counts of modules before it
(stated for totals within the u32 counter range). -/
theorem c2_contiguous_numbering (env : Hdf5Env) (path : RustPath) (pad : Nat)
    (counts : List Nat) (st : OsStr) (stemStr : String) (dir : RustPath)
    (col : Collection)
    (hm : env.fpPerModule path = some counts)
    (hst : path.file_stem = some st)
    (hs : st.to_str = some stemStr)
    (hp : path.parent = some dir)
    (hsum : counts.sum < U32)
    (hok : from_nexus env path pad = Except.ok col) :
    (col.modules.map (fun m => m.data_files.map File.path)).flatten =
      (List.range' 1 counts.sum).map (dataFilePath dir stemStr pad) ∧
    ∀ i (hi : i < counts.length) (hi2 : i < col.modules.length),
      (col.modules.get ⟨i, hi2⟩).data_files.map File.path =
        (List.range' ((counts.take i).sum + 1) (counts.get ⟨i, hi⟩)).map
          (dataFilePath dir stemStr pad) := by
  have h1 := from_nexus_ok_destruct env path pad counts st stemStr dir col hm hst hs hp hok
  have h2 := openModules_ok_eq env dir stemStr pad counts 0 col.modules h1
  have hmp : col.modules.map (fun m => m.data_files.map File.path) =
      expectedPaths dir stemStr pad 0 counts := by
    rw [h2]
    exact expectedModules_paths dir stemStr pad counts 0 (by simpa using hsum)
  constructor
  · rw [hmp, expectedPaths_flatten dir stemStr pad counts 0]
  · intro i hi hi2
    have hie : i < (expectedPaths dir stemStr pad 0 counts).length := by
      rw [expectedPaths_length]; exact hi
    have h4 := get_of_map_eq (fun m => m.data_files.map File.path)
      col.modules _ hmp i hi2 hie
    rw [expectedPaths_get dir stemStr pad counts 0 i hi hie, Nat.zero_add] at h4
    exact h4

/-- C2 witness: counts 1 and 1, every open succeeding, evaluated at the
concrete collection. -/
theorem c2_contiguous_numbering_witness :
    from_nexus ⟨fun _ => true, fun _ => some [1, 1]⟩
        ⟨false, [OsStr.utf8 "run.nxs"]⟩ 2 =
      Except.ok (Collection.mk
        [Module.mk [File.mk ⟨false, [OsStr.utf8 "run_01.h5"]⟩],
         Module.mk [File.mk ⟨false, [OsStr.utf8 "run_02.h5"]⟩]]) ∧
    ((Collection.mk
        [Module.mk [File.mk ⟨false, [OsStr.utf8 "run_01.h5"]⟩],
         Module.mk [File.mk ⟨false, [OsStr.utf8 "run_02.h5"]⟩]]).modules.map
      (fun m => m.data_files.map File.path)).flatten =
      (List.range' 1 ([1, 1] : List Nat).sum).map
        (dataFilePath ⟨false, []⟩ "run" 2) :=
  ⟨rfl,
    (c2_contiguous_numbering ⟨fun _ => true, fun _ => some [1, 1]⟩
      ⟨false, [OsStr.utf8 "run.nxs"]⟩ 2 [1, 1] (OsStr.utf8 "run") "run"
      ⟨false, []⟩ _ rfl rfl rfl rfl (by decide) rfl).1⟩

/-- C4: resolution is all-or-nothing: if the j-th file of module i does not
open, from_nexus returns an error and no Collection. -/
theorem c4_all_or_nothing (env : Hdf5Env) (path : RustPath) (pad : Nat)
    (counts : List Nat) (st : OsStr) (stemStr : String) (dir : RustPath)
    (hm : env.fpPerModule path = some counts)
    (hst : path.file_stem = some st)
    (hs : st.to_str = some stemStr)
    (hp : path.parent = some dir)
    (i j : Nat) (hi : i < counts.length) (hj : j < counts.get ⟨i, hi⟩)
    (hfail : env.openOk (dataFilePath dir stemStr pad (fileNumber counts i j)) = false) :
    ∃ e, from_nexus env path pad = Except.error e := by
  cases hres : from_nexus env path pad with
  | error e => exact ⟨e, rfl⟩
  | ok col =>
    exfalso
    have h1 := from_nexus_ok_destruct env path pad counts st stemStr dir col hm hst hs hp hres
    have h2 := openModules_ok_open env dir stemStr pad counts 0 col.modules h1 i hi j hj
    rw [Nat.zero_add] at h2
    unfold fileNumber at hfail
    rw [h2] at hfail
    simp at hfail

/-- C4 witness: the second file of the single module fails to open, so
from_nexus errors even though the first file opened. -/
theorem c4_all_or_nothing_witness :
    ∃ e, from_nexus
      ⟨fun p => !(decide (p = ⟨false, [OsStr.utf8 "run_2.h5"]⟩)), fun _ => some [2]⟩
      ⟨false, [OsStr.utf8 "run.nxs"]⟩ 1 = Except.error e :=
  c4_all_or_nothing
    ⟨fun p => !(decide (p = ⟨false, [OsStr.utf8 "run_2.h5"]⟩)), fun _ => some [2]⟩
    ⟨false, [OsStr.utf8 "run.nxs"]⟩ 1 [2] (OsStr.utf8 "run") "run" ⟨false, []⟩
    rfl rfl rfl rfl 0 1 (by decide) (by decide) (by decide)

/-- C8: every data file opened by from_nexus has a path obtained by joining
the containing directory of the metadata file with a name of the form
stem underscore padded-number dot h5, where the stem is the metadata file
base name. -/
theorem c8_data_file_name_form (env : Hdf5Env) (path : RustPath) (pad : Nat)
    (counts : List Nat) (st : OsStr) (stemStr : String) (dir : RustPath)
    (col : Collection)
    (hm : env.fpPerModule path = some counts)
    (hst : path.file_stem = some st)
    (hs : st.to_str = some stemStr)
    (hp : path.parent = some dir)
    (hok : from_nexus env path pad = Except.ok col) :
    ∀ m ∈ col.modules, ∀ f ∈ m.data_files,
      ∃ n, f.path = dir.push
        (OsStr.utf8 (stemStr ++ "_" ++ zeroPad pad (Nat.repr n) ++ ".h5")) := by
  intro m hmem f hf
  have h1 := from_nexus_ok_destruct env path pad counts st stemStr dir col hm hst hs hp hok
  have h2 := openModules_ok_eq env dir stemStr pad counts 0 col.modules h1
  rw [h2] at hmem
  exact expectedModules_mem_path dir stemStr pad counts 0 m hmem f hf

/-- C8 witness: a single data file, whose path has the stated form. -/
theorem c8_data_file_name_form_witness :
    ∃ n, (File.mk ⟨false, [OsStr.utf8 "cal_01.h5"]⟩).path =
      RustPath.push ⟨false, []⟩
        (OsStr.utf8 ("cal" ++ "_" ++ zeroPad 2 (Nat.repr n) ++ ".h5")) :=
  c8_data_file_name_form ⟨fun _ => true, fun _ => some [1]⟩
    ⟨false, [OsStr.utf8 "cal.nxs"]⟩ 2 [1] (OsStr.utf8 "cal") "cal" ⟨false, []⟩
    (Collection.mk [Module.mk [File.mk ⟨false, [OsStr.utf8 "cal_01.h5"]⟩]])
    rfl rfl rfl rfl rfl
    (Module.mk [File.mk ⟨false, [OsStr.utf8 "cal_01.h5"]⟩]) (by simp)
    (File.mk ⟨false, [OsStr.utf8 "cal_01.h5"]⟩) (by simp)

/-- C9: with counts 2, 0, 1, base name run and padding width 4, from_nexus
opens exactly run_0001.h5 and run_0002.h5 for module 0, no files for module
1, and run_0003.h5 for module 2. -/
theorem c9_example_counts :
    from_nexus ⟨fun _ => true, fun _ => some [2, 0, 1]⟩
        ⟨false, [OsStr.utf8 "run.nxs"]⟩ 4 =
      Except.ok (Collection.mk
        [Module.mk [File.mk ⟨false, [OsStr.utf8 "run_0001.h5"]⟩,
           File.mk ⟨false, [OsStr.utf8 "run_0002.h5"]⟩],
         Module.mk [],
         Module.mk [File.mk ⟨false, [OsStr.utf8 "run_0003.h5"]⟩]]) := rfl

/-- C10: both the absence of a file stem and a stem that is not valid UTF-8
produce the NoFileStem error. -/
theorem c10_no_file_stem_cases (env : Hdf5Env) (path : RustPath) (pad : Nat)
    (counts : List Nat)
    (hopen : env.openOk path = true)
    (hm : env.fpPerModule path = some counts)
    (hstem : path.file_stem = none ∨
      ∃ st, path.file_stem = some st ∧ st.to_str = none) :
    from_nexus env path pad = Except.error Error.NoFileStem := by
  unfold from_nexus
  rw [hopen]
  simp only [if_true, hm]
  rcases hstem with h1 | ⟨st, h2, h3⟩
  · simp only [h1]
  · simp only [h2, h3]

/-- C10 witness: a path whose only component is a non-UTF-8 file name,
evaluated. -/
theorem c10_no_file_stem_cases_witness :
    from_nexus ⟨fun _ => true, fun _ => some []⟩
      ⟨false, [OsStr.nonUtf8 [255]]⟩ 6 = Except.error Error.NoFileStem :=
  c10_no_file_stem_cases ⟨fun _ => true, fun _ => some []⟩
    ⟨false, [OsStr.nonUtf8 [255]]⟩ 6 [] rfl rfl
    (Or.inr ⟨OsStr.nonUtf8 [255], rfl, rfl⟩)

/-- C3: zero padding is a minimum width, never a truncation: a number with
fewer decimal digits than the width is left-padded with zeros to exactly the
width; a number with at least as many digits is rendered in full. -/
theorem c3_zero_padding (stemStr : String) (pad n : Nat) :
    ((Nat.repr n).length < pad →
      dataFileName stemStr pad n =
        stemStr ++ "_" ++
          (String.mk (List.replicate (pad - (Nat.repr n).length) '0') ++ Nat.repr n) ++
          ".h5" ∧
      (zeroPad pad (Nat.repr n)).length = pad) ∧
    (pad ≤ (Nat.repr n).length →
      dataFileName stemStr pad n = stemStr ++ "_" ++ Nat.repr n ++ ".h5") := by
  constructor
  · intro h
    constructor
    · unfold dataFileName zeroPad
      rw [if_pos h]
    · unfold zeroPad
      rw [if_pos h, String.length_append]
      have hmk : ∀ l : List Char, (String.mk l).length = l.length := fun _ => rfl
      rw [hmk, List.length_replicate]
      omega
  · intro h
    unfold dataFileName zeroPad
    rw [if_neg (by omega)]

/-- C3 witness: width 4 pads 3 to 0003; width 2 leaves 12345 untruncated. -/
theorem c3_zero_padding_witness :
    ((Nat.repr 3).length < 4 ∧
      dataFileName "run" 4 3 =
        "run" ++ "_" ++
          (String.mk (List.replicate (4 - (Nat.repr 3).length) '0') ++ Nat.repr 3) ++
          ".h5") ∧
    (2 ≤ (Nat.repr 12345).length ∧
      dataFileName "run" 2 12345 = "run" ++ "_" ++ Nat.repr 12345 ++ ".h5") :=
  ⟨⟨by decide, ((c3_zero_padding "run" 4 3).1 (by decide)).1⟩,
   ⟨by decide, (c3_zero_padding "run" 2 12345).2 (by decide)⟩⟩

theorem readKeys_all_present {α : Type} (env : DataEnv α) (p : RustPath)
    (keys : List String) :
    (∀ k ∈ keys, env.hasDataset p k = true ∧ env.readOk p k = true) →
    readKeys env p keys = Except.ok (keys.map (fun k => env.values p k)) := by
  induction keys with
  | nil => intro _; rfl
  | cons key rest ih =>
    intro hall
    have hk := hall key (by simp)
    simp only [readKeys, hk.1, hk.2, if_true]
    rw [ih (fun k hk2 => hall k (by simp [hk2]))]
    rfl

theorem readKeys_first_missing {α : Type} (env : DataEnv α) (p : RustPath)
    (keys : List String) (k0 : String) :
    keys.find? (fun k => !env.hasDataset p k) = some k0 →
    (∀ k ∈ keys, env.hasDataset p k = true → env.readOk p k = true) →
    readKeys env p keys = Except.error (Error.DatasetNotFound k0) := by
  induction keys with
  | nil => intro hf _; simp at hf
  | cons key rest ih =>
    intro hf hall
    cases hh : env.hasDataset p key with
    | false =>
      simp only [List.find?, hh, Bool.not_false, Option.some.injEq] at hf
      rw [← hf]
      simp [readKeys, hh]
    | true =>
      simp only [List.find?, hh, Bool.not_true] at hf
      have hr := hall key (by simp) hh
      simp only [readKeys, hh, hr, if_true]
      rw [ih hf (fun k hk2 => hall k (by simp [hk2]))]

theorem readKeys_congr {α : Type} (env env2 : DataEnv α) (p : RustPath)
    (keys : List String) :
    (∀ k, env.hasDataset p k = env2.hasDataset p k) →
    (∀ k, env.readOk p k = env2.readOk p k) →
    (∀ k, env.values p k = env2.values p k) →
    readKeys env p keys = readKeys env2 p keys := by
  induction keys with
  | nil => intro _ _ _; rfl
  | cons key rest ih =>
    intro h1 h2 h3
    simp only [readKeys, h1 key, h2 key, h3 key, ih h1 h2 h3]

/-- C5: read_hdf5_data returns one array per requested key in request
order; the first key whose dataset is absent aborts the whole call with
DatasetNotFound naming exactly that key and no arrays are returned; and
each invocation depends only on the environment at its own path, so a
failure for one file cannot affect a call for another file. -/
theorem c5_read_datasets (α : Type) :
    (∀ (env : DataEnv α) (p : RustPath) (keys : List String),
      env.openOk p = true →
      (∀ k ∈ keys, env.hasDataset p k = true ∧ env.readOk p k = true) →
      read_hdf5_data env p keys = Except.ok (keys.map (fun k => env.values p k))) ∧
    (∀ (env : DataEnv α) (p : RustPath) (keys : List String) (k0 : String),
      env.openOk p = true →
      keys.find? (fun k => !env.hasDataset p k) = some k0 →
      (∀ k ∈ keys, env.hasDataset p k = true → env.readOk p k = true) →
      read_hdf5_data env p keys = Except.error (Error.DatasetNotFound k0)) ∧
    (∀ (env env2 : DataEnv α) (p : RustPath) (keys : List String),
      env.openOk p = env2.openOk p →
      (∀ k, env.hasDataset p k = env2.hasDataset p k) →
      (∀ k, env.readOk p k = env2.readOk p k) →
      (∀ k, env.values p k = env2.values p k) →
      read_hdf5_data env p keys = read_hdf5_data env2 p keys) := by
  refine ⟨?_, ?_, ?_⟩
  · intro env p keys hopen hall
    unfold read_hdf5_data
    rw [hopen]
    simp only [if_true]
    exact readKeys_all_present env p keys hall
  · intro env p keys k0 hopen hf hall
    unfold read_hdf5_data
    rw [hopen]
    simp only [if_true]
    exact readKeys_first_missing env p keys k0 hf hall
  · intro env env2 p keys hopen h1 h2 h3
    unfold read_hdf5_data
    rw [hopen]
    cases env2.openOk p with
    | false => rfl
    | true =>
      simp only [if_true]
      exact readKeys_congr env env2 p keys h1 h2 h3

/-- C5 witness: a file holding only event_id: requesting event_id succeeds
with its values; requesting event_id then missing_key from another file
fails with DatasetNotFound missing_key. -/
theorem c5_read_datasets_witness :
    read_hdf5_data
        (⟨fun _ => true, fun _ k => decide (k = "event_id"), fun _ _ => true,
          fun _ k => if k = "event_id" then [1, 2] else []⟩ : DataEnv Nat)
        ⟨false, [OsStr.utf8 "f1.h5"]⟩ ["event_id"] =
      Except.ok (["event_id"].map (fun k =>
        (⟨fun _ => true, fun _ k => decide (k = "event_id"), fun _ _ => true,
          fun _ k => if k = "event_id" then [1, 2] else []⟩ : DataEnv Nat).values
          ⟨false, [OsStr.utf8 "f1.h5"]⟩ k)) ∧
    read_hdf5_data
        (⟨fun _ => true, fun _ k => decide (k = "event_id"), fun _ _ => true,
          fun _ k => if k = "event_id" then [1, 2] else []⟩ : DataEnv Nat)
        ⟨false, [OsStr.utf8 "f2.h5"]⟩ ["event_id", "missing_key"] =
      Except.error (Error.DatasetNotFound "missing_key") :=
  ⟨(c5_read_datasets Nat).1 _ _ ["event_id"] rfl (by decide),
   (c5_read_datasets Nat).2.1 _ _ ["event_id", "missing_key"] "missing_key"
     rfl (by decide) (by decide)⟩

theorem foldl_add_empty (files : List File) :
    ∀ (t : String) (cs : List StringItem) (bs : List (String × List StringItem)),
      files.foldl (fun b f => b.add_empty_child f.filename)
          (TreeBuilder.mk ((t, cs) :: bs)) =
        TreeBuilder.mk
          ((t, cs ++ files.map (fun f => StringItem.node f.filename [])) :: bs) := by
  induction files with
  | nil => intro t cs bs; simp
  | cons f rest ih =>
    intro t cs bs
    simp only [List.foldl_cons]
    rw [show (TreeBuilder.mk ((t, cs) :: bs)).add_empty_child f.filename =
      TreeBuilder.mk ((t, cs ++ [StringItem.node f.filename []]) :: bs) from rfl]
    rw [ih]
    simp

theorem foldl_visitModule (l : List (Nat × Module)) :
    ∀ (t : String) (cs : List StringItem) (bs : List (String × List StringItem)),
      l.foldl visitModule (TreeBuilder.mk ((t, cs) :: bs)) =
        TreeBuilder.mk ((t, cs ++ l.map moduleItem) :: bs) := by
  induction l with
  | nil => intro t cs bs; simp
  | cons p rest ih =>
    intro t cs bs
    have hstep : visitModule (TreeBuilder.mk ((t, cs) :: bs)) p =
        TreeBuilder.mk ((t, cs ++ [moduleItem p]) :: bs) := by
      unfold visitModule TreeBuilder.begin_child
      rw [foldl_add_empty]
      simp [TreeBuilder.end_child, moduleItem]
    rw [List.foldl_cons, hstep, ih]
    simp

/-- C6 (amended): as_tree is total and pure and produces a root labelled
collection, one child per module labelled with its zero-based index, and
one leaf per owned file in ascending module and file order; each leaf is
labelled with File::filename, which is the full path the file was opened
under, not just its final file name. -/
theorem c6_as_tree_structure (c : Collection) :
    as_tree c = StringItem.node "collection"
      (c.modules.enum.map (fun p =>
        StringItem.node ("module_" ++ Nat.repr p.1)
          (p.2.data_files.map (fun f => StringItem.node f.filename [])))) := by
  unfold as_tree TreeBuilder.new
  rw [foldl_visitModule]
  simp [TreeBuilder.build, moduleItem]

/-- C6 counterexample: for a collection resolved from d/run.nxs, the leaf is
labelled d/run_0001.h5, the full opened path, which differs from the file
system name run_0001.h5 the claim requires. -/
theorem c6_full_path_counterexample :
    from_nexus ⟨fun _ => true, fun _ => some [1]⟩
        ⟨false, [OsStr.utf8 "d", OsStr.utf8 "run.nxs"]⟩ 4 =
      Except.ok (Collection.mk
        [Module.mk [File.mk ⟨false, [OsStr.utf8 "d", OsStr.utf8 "run_0001.h5"]⟩]]) ∧
    as_tree (Collection.mk
        [Module.mk [File.mk ⟨false, [OsStr.utf8 "d", OsStr.utf8 "run_0001.h5"]⟩]]) =
      StringItem.node "collection"
        [StringItem.node "module_0" [StringItem.node "d/run_0001.h5" []]] ∧
    decide (("d/run_0001.h5" : String) = "run_0001.h5") = false :=
  ⟨rfl, rfl, by decide⟩

/-- C7 (amended): from_nexus never surfaces the NoParentDirecory error:
every run either succeeds, fails with an Hdf5 error, or fails with
NoFileStem, because any path without a parent also has no file stem and
NoFileStem is checked first; in particular a bare file name resolves with
the empty parent directory instead of erroring. -/
theorem c7_no_parent_error_unreachable (env : Hdf5Env) (path : RustPath) (pad : Nat) :
    (∃ col, from_nexus env path pad = Except.ok col) ∨
    from_nexus env path pad = Except.error Error.Hdf5 ∨
    from_nexus env path pad = Except.error Error.NoFileStem := by
  cases hres : from_nexus env path pad with
  | ok col => exact Or.inl ⟨col, rfl⟩
  | error e =>
    right
    have he : e = Error.Hdf5 ∨ e = Error.NoFileStem := by
      unfold from_nexus at hres
      cases hopen : env.openOk path with
      | false =>
        rw [hopen] at hres
        simp at hres
        left
        exact hres.symm
      | true =>
        rw [hopen] at hres
        simp only [if_true] at hres
        cases hmc : env.fpPerModule path with
        | none =>
          simp only [hmc] at hres
          simp at hres
          left
          exact hres.symm
        | some counts =>
          simp only [hmc] at hres
          cases hst : path.file_stem with
          | none =>
            simp only [hst] at hres
            simp at hres
            right
            exact hres.symm
          | some st =>
            simp only [hst] at hres
            cases hts : st.to_str with
            | none =>
              simp only [hts] at hres
              simp at hres
              right
              exact hres.symm
            | some stemStr =>
              simp only [hts] at hres
              cases hpar : path.parent with
              | none =>
                exfalso
                cases hcomp : path.components with
                | nil =>
                  have hfn : path.file_name = none := by
                    unfold RustPath.file_name
                    rw [hcomp]
                    rfl
                  unfold RustPath.file_stem at hst
                  rw [hfn] at hst
                  simp at hst
                | cons a l =>
                  unfold RustPath.parent at hpar
                  rw [hcomp] at hpar
                  simp at hpar
              | some dir =>
                simp only [hpar] at hres
                cases homs : openModules env dir stemStr pad 0 counts with
                | error e2 =>
                  simp only [homs] at hres
                  simp at hres
                  left
                  rw [hres] at homs
                  exact openModules_error_eq env dir stemStr pad counts 0 e homs
                | ok ms =>
                  simp only [homs] at hres
                  simp at hres
    rcases he with h1 | h2
    · left; rw [h1]
    · right; rw [h2]

/-- C7 counterexample: a bare metadata file name has the empty path as its
parent, so from_nexus succeeds instead of failing with NoParentDirecory as
the claim requires. -/
theorem c7_bare_filename_counterexample :
    from_nexus ⟨fun _ => true, fun _ => some [0]⟩
        ⟨false, [OsStr.utf8 "run.nxs"]⟩ 6 =
      Except.ok (Collection.mk [Module.mk []]) :=
  rfl

end Tristimg
